import Mathlib

/-!
Shallow embedding of `audio/internal/go2cpp/player_js.go` (package go2cpp).

The Go file implements a `Player` that streams bytes from an `io.Reader`
into a JavaScript audio sink handle (`p.v`, a `js.Value` that is either
`js.Undefined()` — not truthy — or a live handle object).  We embed:

  * the `Player` struct as a Lean structure (`v` is a `Bool` recording
    whether the js value is truthy, `hVolume` mirrors the handle's
    `volume` attribute, `err` is the sticky error as an optional error
    code, `onWrittenReleased` records `p.onWritten.Release()`,
    `finalizer` records whether the runtime finalizer is set);
  * every method as a function from the player to the new player together
    with a trace of `Action`s: lock/unlock of `p.cond.L`, reads and
    writes of the shared fields, calls on the handle (with the boolean
    argument of `Call("close", b)` and whether the handle was truthy at
    the moment of the call), handle allocation (`createPlayer`),
    goroutine start (`go p.loop()`), condition signals, finalizer
    (de)registration and `onWritten.Release()`;
  * the streaming goroutine `loop` as a sequential function over a script
    of read results (each `p.src.Read(buf)` call returns a chunk of bytes
    and an optional error, `io.EOF` or a fatal one), under a
    no-interference schedule in which the sink stays writable — the model
    returns `none` when the condition wait would block forever or the
    script is exhausted.

Errors are opaque codes (`Nat`); volumes are `ℚ` (the Go code only
stores and reads back `float64` volumes, no arithmetic is performed).
-/

namespace Go2cpp

/-- Transport state of a player: `playerStatePaused | playerStatePlaying |
playerStateClosed` in the Go source (`paused` is the zero value). -/
inductive PlayerState
  | paused
  | playing
  | closed
  deriving DecidableEq, Repr

/-- Shared mutable fields of the Go `Player` struct that the spec lists as
protected by the mutex: `state`, `v` (the handle), `volume`, `err`. -/
inductive Field
  | state
  | v
  | volume
  | err
  deriving DecidableEq, Repr

/-- One observable primitive step of a player method: mutex operations,
accesses to the shared fields, calls on the js handle, goroutine start,
and finalizer bookkeeping. -/
inductive Action
  | lock
  | unlock
  | signal
  | rd (f : Field)
  | wrF (f : Field)
  | callCreatePlayer
  | hSetVolume (x : ℚ)
  | hGetVolume
  | hPlay
  | hPause
  | hClose (present : Bool) (discard : Bool)
  | hWrite (bytes : List Nat)
  | goLoop
  | setFinalizer (registered : Bool)
  | releaseOnWritten
  deriving DecidableEq, Repr

/-- The Go `Player` struct.  `v = true` iff `p.v.Truthy()`; `hVolume` is
the handle's `volume` js attribute (meaningful only while `v = true`);
`err` is the sticky error (`none` = Go `nil`). -/
structure Player where
  v : Bool
  hVolume : ℚ
  state : PlayerState
  volume : ℚ
  err : Option Nat
  onWrittenReleased : Bool
  finalizer : Bool
  deriving DecidableEq, Repr

/-- Player as built by `Context.NewPlayer`: zero-valued state
(`playerStatePaused`), no handle, `volume = 1`, finalizer registered by
`runtime.SetFinalizer(p, (*Player).Close)`. -/
def newPlayer : Player :=
  { v := false
    hVolume := 0
    state := PlayerState.paused
    volume := 1
    err := none
    onWrittenReleased := false
    finalizer := true }

namespace Player

/-- Go `Player.Pause`: under the lock, no-op when closed or no handle;
otherwise `p.v.Call("pause")`, `state = playerStatePaused`, signal. -/
def Pause (p : Player) : Player × List Action :=
  if p.state = PlayerState.closed then
    (p, [Action.lock, Action.rd Field.state, Action.unlock])
  else if p.v = false then
    (p, [Action.lock, Action.rd Field.state, Action.rd Field.v, Action.unlock])
  else
    ({ p with state := PlayerState.paused },
     [Action.lock, Action.rd Field.state, Action.rd Field.v, Action.hPause,
      Action.wrF Field.state, Action.signal, Action.unlock])

/-- Go `Player.Play`: under the lock, no-op when closed; when the handle is
not truthy, allocate one via `p.context.v.Call("createPlayer", p.onWritten)`,
set its `volume` from the cached `p.volume` and start `go p.loop()`; then
`p.v.Call("play")`, `state = playerStatePlaying`, signal. -/
def Play (p : Player) : Player × List Action :=
  if p.state = PlayerState.closed then
    (p, [Action.lock, Action.rd Field.state, Action.unlock])
  else if p.v = false then
    ({ p with v := true, hVolume := p.volume, state := PlayerState.playing },
     [Action.lock, Action.rd Field.state, Action.rd Field.v,
      Action.callCreatePlayer, Action.wrF Field.v, Action.rd Field.volume,
      Action.hSetVolume p.volume, Action.goLoop, Action.hPlay,
      Action.wrF Field.state, Action.signal, Action.unlock])
  else
    ({ p with state := PlayerState.playing },
     [Action.lock, Action.rd Field.state, Action.rd Field.v, Action.hPlay,
      Action.wrF Field.state, Action.signal, Action.unlock])

/-- Go `Player.Reset`: under the lock, no-op when closed or no handle;
otherwise `p.v.Call("close", true)`, clear the handle, signal. -/
def Reset (p : Player) : Player × List Action :=
  if p.state = PlayerState.closed then
    (p, [Action.lock, Action.rd Field.state, Action.unlock])
  else if p.v = false then
    (p, [Action.lock, Action.rd Field.state, Action.rd Field.v, Action.unlock])
  else
    ({ p with v := false },
     [Action.lock, Action.rd Field.state, Action.rd Field.v,
      Action.hClose true true, Action.wrF Field.v, Action.signal, Action.unlock])

/-- Go `Player.Volume`: no lock is taken; returns the cached `p.volume`
when the handle is not truthy, else the handle's `volume` attribute. -/
def Volume (p : Player) : ℚ × List Action :=
  if p.v = false then
    (p.volume, [Action.rd Field.v, Action.rd Field.volume])
  else
    (p.hVolume, [Action.rd Field.v, Action.hGetVolume])

/-- Go `Player.SetVolume`: no lock is taken; returns immediately when the
handle is not truthy, else sets the handle's `volume` attribute and the
cached `p.volume`. -/
def SetVolume (p : Player) (volume : ℚ) : Player × List Action :=
  if p.v = false then
    (p, [Action.rd Field.v])
  else
    ({ p with hVolume := volume, volume := volume },
     [Action.rd Field.v, Action.hSetVolume volume, Action.wrF Field.volume])

/-- Go `Player.close(remove bool)`: under the lock, returns the sticky
`p.err` when already closed; otherwise `p.v.Call("close", false)` — the
call is made whether or not `p.v` is truthy, and always with argument
`false` — clears the handle, then when `remove` sets
`state = playerStateClosed` and releases `p.onWritten`, else sets
`state = playerStatePaused`; signals and returns `p.err`. -/
def close (p : Player) (remove : Bool) : (Player × Option Nat) × List Action :=
  if p.state = PlayerState.closed then
    ((p, p.err), [Action.lock, Action.rd Field.state, Action.rd Field.err, Action.unlock])
  else if remove then
    (({ p with v := false, state := PlayerState.closed, onWrittenReleased := true }, p.err),
     [Action.lock, Action.rd Field.state, Action.hClose p.v false,
      Action.wrF Field.v, Action.wrF Field.state, Action.releaseOnWritten,
      Action.signal, Action.rd Field.err, Action.unlock])
  else
    (({ p with v := false, state := PlayerState.paused }, p.err),
     [Action.lock, Action.rd Field.state, Action.hClose p.v false,
      Action.wrF Field.v, Action.wrF Field.state,
      Action.signal, Action.rd Field.err, Action.unlock])

/-- Go `Player.Close`: `runtime.SetFinalizer(p, nil)` then the internal
`p.close(true)`. -/
def Close (p : Player) : (Player × Option Nat) × List Action :=
  let r := Player.close { p with finalizer := false } true
  (r.1, Action.setFinalizer false :: r.2)

/-- Go `Player.setError`: under the lock, when not closed and the handle is
truthy, `p.v.Call("close", true)` and clear the handle; then
unconditionally `p.err = err`, `state = playerStateClosed`, signal.  (The
short-circuit of `p.state != playerStateClosed && p.v.Truthy()` is
reflected in which fields are read.) -/
def setError (p : Player) (e : Nat) : Player × List Action :=
  if p.state = PlayerState.closed then
    ({ p with err := some e, state := PlayerState.closed },
     [Action.lock, Action.rd Field.state, Action.wrF Field.err,
      Action.wrF Field.state, Action.signal, Action.unlock])
  else if p.v = true then
    ({ p with v := false, err := some e, state := PlayerState.closed },
     [Action.lock, Action.rd Field.state, Action.rd Field.v,
      Action.hClose true true, Action.wrF Field.v, Action.wrF Field.err,
      Action.wrF Field.state, Action.signal, Action.unlock])
  else
    ({ p with err := some e, state := PlayerState.closed },
     [Action.lock, Action.rd Field.state, Action.rd Field.v,
      Action.wrF Field.err, Action.wrF Field.state, Action.signal, Action.unlock])

/-- Go `Player.write`: under the lock, no-op when closed or no handle;
otherwise `js.CopyBytesToJS` and `p.v.Call("write", dst, len(src))`. -/
def write (p : Player) (src : List Nat) : Player × List Action :=
  if p.state = PlayerState.closed then
    (p, [Action.lock, Action.rd Field.state, Action.unlock])
  else if p.v = false then
    (p, [Action.lock, Action.rd Field.state, Action.rd Field.v, Action.unlock])
  else
    (p, [Action.lock, Action.rd Field.state, Action.rd Field.v,
         Action.hWrite src, Action.unlock])

end Player

/-- A read error of the Go `io.Reader`: `io.EOF` or any other (fatal)
error, as distinguished by `Player.loop`. -/
inductive RErr
  | eof
  | fatal (code : Nat)
  deriving DecidableEq, Repr

/-- Result of one `p.src.Read(buf)` call: the bytes read (`buf[:n]`) and
the returned error (`none` = `nil`). -/
abbrev ReadResult := List Nat × Option RErr

namespace Player

/-- Go `Player.waitUntilUnpaused`, under a sequential (no-interference)
schedule: the for-loop condition
`p.v.Truthy() && (p.state == playerStatePaused || (p.state == playerStatePlaying && !p.v.Call("isWritable").Bool()))`
blocks on the condition variable; with no other goroutine to signal, a true
condition blocks forever (`none`).  `writable` is the sink's
`isWritable` report.  Otherwise the result is
`p.v.Truthy() && p.state == playerStatePlaying`. -/
def waitUntilUnpaused (p : Player) (writable : Bool) : Option Bool :=
  if p.v = true ∧ (p.state = PlayerState.paused ∨
      (p.state = PlayerState.playing ∧ writable = false)) then
    none
  else
    some (decide (p.v = true ∧ p.state = PlayerState.playing))

/-- Go `Player.loop`, run sequentially over a script of read results (one
entry per `p.src.Read(buf)` call, consumed in order).  Each iteration:
`waitUntilUnpaused` (exit when it returns false, `none` when it would
block forever), then read; a non-EOF error goes to `setError` and the
goroutine returns; `n > 0` bytes are passed to `p.write`; `io.EOF` causes
`p.close(false)` and return.  `none` also when the script is exhausted
while the loop still wants to read. -/
def loop (writable : Bool) : Player → List ReadResult → Option (Player × List Action)
  | p, [] =>
    (p.waitUntilUnpaused writable).bind fun proceed =>
      if proceed then none else some (p, [])
  | p, (chunk, e) :: rest =>
    (p.waitUntilUnpaused writable).bind fun proceed =>
      if proceed then
        match e with
        | some (RErr.fatal c) =>
          let r := p.setError c
          some (r.1, r.2)
        | some RErr.eof =>
          let r1 := if 0 < chunk.length then p.write chunk else (p, [])
          let r2 := Player.close r1.1 false
          some (r2.1.1, r1.2 ++ r2.2)
        | none =>
          let r1 := if 0 < chunk.length then p.write chunk else (p, [])
          (loop writable r1.1 rest).map fun r => (r.1, r1.2 ++ r.2)
      else some (p, [])

end Player

/-- Bytes delivered to the handle by a trace: concatenation of the
payloads of its `hWrite` actions, in order. -/
def writtenBytes : List Action → List Nat
  | [] => []
  | Action.hWrite bs :: rest => bs ++ writtenBytes rest
  | Action.lock :: rest => writtenBytes rest
  | Action.unlock :: rest => writtenBytes rest
  | Action.signal :: rest => writtenBytes rest
  | Action.rd _ :: rest => writtenBytes rest
  | Action.wrF _ :: rest => writtenBytes rest
  | Action.callCreatePlayer :: rest => writtenBytes rest
  | Action.hSetVolume _ :: rest => writtenBytes rest
  | Action.hGetVolume :: rest => writtenBytes rest
  | Action.hPlay :: rest => writtenBytes rest
  | Action.hPause :: rest => writtenBytes rest
  | Action.hClose _ _ :: rest => writtenBytes rest
  | Action.goLoop :: rest => writtenBytes rest
  | Action.setFinalizer _ :: rest => writtenBytes rest
  | Action.releaseOnWritten :: rest => writtenBytes rest

/-- Checks that every read or write of a shared field in the trace happens
while the mutex is held, tracking the lock depth. -/
def guardedFrom : Nat → List Action → Bool
  | _, [] => true
  | d, Action.lock :: rest => guardedFrom (d + 1) rest
  | d, Action.unlock :: rest => guardedFrom (d - 1) rest
  | d, Action.rd _ :: rest => decide (0 < d) && guardedFrom d rest
  | d, Action.wrF _ :: rest => decide (0 < d) && guardedFrom d rest
  | d, Action.signal :: rest => guardedFrom d rest
  | d, Action.callCreatePlayer :: rest => guardedFrom d rest
  | d, Action.hSetVolume _ :: rest => guardedFrom d rest
  | d, Action.hGetVolume :: rest => guardedFrom d rest
  | d, Action.hPlay :: rest => guardedFrom d rest
  | d, Action.hPause :: rest => guardedFrom d rest
  | d, Action.hClose _ _ :: rest => guardedFrom d rest
  | d, Action.hWrite _ :: rest => guardedFrom d rest
  | d, Action.goLoop :: rest => guardedFrom d rest
  | d, Action.setFinalizer _ :: rest => guardedFrom d rest
  | d, Action.releaseOnWritten :: rest => guardedFrom d rest

/-- A trace accesses shared state only under the mutex. -/
def guarded (evs : List Action) : Bool := guardedFrom 0 evs

/-- The operations the closed-is-terminal invariant quantifies over: the
public transport operations and the internal `setError`. -/
inductive Op
  | play
  | pause
  | reset
  | closeOp
  | setErr (e : Nat)
  deriving DecidableEq, Repr

/-- One operation applied to a player, with its trace. -/
def Player.step (p : Player) : Op → Player × List Action
  | Op.play => p.Play
  | Op.pause => p.Pause
  | Op.reset => p.Reset
  | Op.closeOp => ((p.Close).1.1, (p.Close).2)
  | Op.setErr e => p.setError e

/-- A sequence of operations applied in order, traces concatenated. -/
def Player.runOps (p : Player) : List Op → Player × List Action
  | [] => (p, [])
  | op :: rest =>
    let r1 := p.step op
    let r2 := Player.runOps r1.1 rest
    (r2.1, r1.2 ++ r2.2)

/-- Iterated public `Close`. -/
def Player.iterClose (p : Player) : Nat → Player
  | 0 => p
  | n + 1 => Player.iterClose (p.Close).1.1 n

/-- The trace an iteration of the streaming loop emits for one error-free
chunk: the trace of `p.write` when the chunk is non-empty, nothing
otherwise. -/
def chunkTrace (p : Player) (ch : List Nat) : List Action :=
  (if 0 < ch.length then p.write ch else (p, [])).2

/-- Traces of a run of error-free chunks, concatenated. -/
def chunksTrace (p : Player) (chs : List (List Nat)) : List Action :=
  (chs.map (chunkTrace p)).flatten

/-- A source script that yields the given chunks with no error, then a
final read returning `last` together with `io.EOF`. -/
def eofScript (chs : List (List Nat)) (last : List Nat) : List ReadResult :=
  chs.map (fun c => (c, (none : Option RErr))) ++ [(last, some RErr.eof)]

/-- A source script that yields the given chunks with no error, then a
read returning `c` together with a fatal (non-EOF) error `e`, followed by
arbitrary further results. -/
def fatalScript (chs : List (List Nat)) (c : List Nat) (e : Nat)
    (post : List ReadResult) : List ReadResult :=
  chs.map (fun ch => (ch, (none : Option RErr))) ++ (c, some (RErr.fatal e)) :: post

/-! Basic lemmas about the embedded operations. -/

lemma Player.write_fst (p : Player) (ch : List Nat) : (p.write ch).1 = p := by
  unfold Player.write
  split
  · rfl
  · split <;> rfl

lemma Player.wait_playing (p : Player) (hv : p.v = true)
    (hs : p.state = PlayerState.playing) :
    p.waitUntilUnpaused true = some true := by
  unfold Player.waitUntilUnpaused
  rw [hv, hs]
  simp

lemma Player.close_fst_closed (p : Player) (h : p.state = PlayerState.closed) :
    (p.close true).1.1 = p ∧ (p.close true).1.2 = p.err := by
  unfold Player.close
  rw [if_pos h]
  exact ⟨rfl, rfl⟩

lemma Player.Close_closed (p : Player) (h : p.state = PlayerState.closed) :
    (p.Close).1.1 = { p with finalizer := false } ∧ (p.Close).1.2 = p.err := by
  unfold Player.Close Player.close
  rw [if_pos (show ({ p with finalizer := false } : Player).state = PlayerState.closed from h)]
  exact ⟨rfl, rfl⟩

/-- A single operation applied to a closed player leaves the state closed
and performs no handle allocation. -/
lemma Player.step_closed (p : Player) (op : Op) (h : p.state = PlayerState.closed) :
    (p.step op).1.state = PlayerState.closed ∧
    Action.callCreatePlayer ∉ (p.step op).2 := by
  cases op with
  | play =>
    simp only [Player.step, Player.Play, if_pos h]
    exact ⟨h, by simp⟩
  | pause =>
    simp only [Player.step, Player.Pause, if_pos h]
    exact ⟨h, by simp⟩
  | reset =>
    simp only [Player.step, Player.Reset, if_pos h]
    exact ⟨h, by simp⟩
  | closeOp =>
    simp only [Player.step, Player.Close, Player.close]
    rw [if_pos (show ({ p with finalizer := false } : Player).state = PlayerState.closed from h)]
    exact ⟨h, by simp⟩
  | setErr e =>
    simp only [Player.step, Player.setError, if_pos h]
    exact ⟨trivial, by simp⟩

/-! Lemmas about the streaming loop under the sequential schedule. -/

lemma Player.loop_proceed (p : Player) (hv : p.v = true)
    (hs : p.state = PlayerState.playing) (chunk : List Nat) (e : Option RErr)
    (rest : List ReadResult) :
    Player.loop true p ((chunk, e) :: rest) =
      match e with
      | some (RErr.fatal c) =>
        let r := p.setError c
        some (r.1, r.2)
      | some RErr.eof =>
        let r1 := if 0 < chunk.length then p.write chunk else (p, [])
        let r2 := Player.close r1.1 false
        some (r2.1.1, r1.2 ++ r2.2)
      | none =>
        let r1 := if 0 < chunk.length then p.write chunk else (p, [])
        (Player.loop true r1.1 rest).map fun r => (r.1, r1.2 ++ r.2) := by
  conv_lhs => rw [Player.loop.eq_def]
  dsimp only
  rw [Player.wait_playing p hv hs]
  rfl

lemma chunk_step_fst (p : Player) (ch : List Nat) :
    (if 0 < ch.length then p.write ch else (p, [])).1 = p := by
  split
  · exact Player.write_fst p ch
  · rfl

lemma Player.loop_cons_none (p : Player) (hv : p.v = true)
    (hs : p.state = PlayerState.playing) (ch : List Nat) (rest : List ReadResult) :
    Player.loop true p ((ch, none) :: rest) =
      (Player.loop true p rest).map (fun r => (r.1, chunkTrace p ch ++ r.2)) := by
  rw [Player.loop_proceed p hv hs ch none rest]
  simp only [chunk_step_fst]
  rfl

lemma Player.loop_chunks (p : Player) (hv : p.v = true)
    (hs : p.state = PlayerState.playing) (chs : List (List Nat))
    (rest : List ReadResult) :
    Player.loop true p (chs.map (fun c => (c, (none : Option RErr))) ++ rest) =
      (Player.loop true p rest).map (fun r => (r.1, chunksTrace p chs ++ r.2)) := by
  induction chs with
  | nil =>
    simp only [List.map_nil, List.nil_append, chunksTrace, chunkTrace, List.flatten]
    cases Player.loop true p rest with
    | none => rfl
    | some r => simp
  | cons c cs ih =>
    simp only [List.map_cons, List.cons_append]
    rw [Player.loop_cons_none p hv hs, ih]
    cases Player.loop true p rest with
    | none => rfl
    | some r =>
      simp only [Option.map_some, Option.map_map]
      simp [chunksTrace, List.append_assoc]

lemma Player.loop_nil_eof (p : Player) (hv : p.v = true)
    (hs : p.state = PlayerState.playing) (last : List Nat) :
    Player.loop true p [(last, some RErr.eof)] =
      some ({ p with v := false, state := PlayerState.paused },
        chunkTrace p last ++ (Player.close p false).2) := by
  rw [Player.loop_proceed p hv hs last (some RErr.eof) []]
  simp only [chunk_step_fst]
  have hnc : ¬ p.state = PlayerState.closed := by rw [hs]; intro hcl; cases hcl
  unfold Player.close
  rw [if_neg hnc]
  rfl

lemma Player.loop_fatal_head (p : Player) (hv : p.v = true)
    (hs : p.state = PlayerState.playing) (c : List Nat) (e : Nat)
    (post : List ReadResult) :
    Player.loop true p ((c, some (RErr.fatal e)) :: post) =
      some ((p.setError e).1, (p.setError e).2) := by
  rw [Player.loop_proceed p hv hs c (some (RErr.fatal e)) post]

/-! Lemmas about `writtenBytes`. -/

lemma writtenBytes_append (a b : List Action) :
    writtenBytes (a ++ b) = writtenBytes a ++ writtenBytes b := by
  induction a with
  | nil => rfl
  | cons x rest ih => cases x <;> simp [writtenBytes, ih]

lemma writtenBytes_chunkTrace (p : Player) (hv : p.v = true)
    (hnc : p.state ≠ PlayerState.closed) (ch : List Nat) :
    writtenBytes (chunkTrace p ch) = ch := by
  unfold chunkTrace
  split
  · unfold Player.write
    rw [if_neg hnc, if_neg (by rw [hv]; intro hf; cases hf)]
    simp [writtenBytes]
  · rename_i hlen
    have : ch = [] := List.length_eq_zero.mp (Nat.eq_zero_of_not_pos hlen)
    rw [this]
    rfl

lemma writtenBytes_chunksTrace (p : Player) (hv : p.v = true)
    (hnc : p.state ≠ PlayerState.closed) (chs : List (List Nat)) :
    writtenBytes (chunksTrace p chs) = chs.flatten := by
  induction chs with
  | nil => rfl
  | cons c cs ih =>
    simp only [chunksTrace, List.map_cons, List.flatten_cons] at ih ⊢
    rw [writtenBytes_append, writtenBytes_chunkTrace p hv hnc, ih]

lemma Player.iterClose_closed (p : Player) (h : p.state = PlayerState.closed)
    (n : Nat) :
    (Player.iterClose p n).state = PlayerState.closed ∧
    (Player.iterClose p n).err = p.err := by
  induction n generalizing p with
  | zero => exact ⟨h, rfl⟩
  | succ m ih =>
    have hc := Player.Close_closed p h
    simp only [Player.iterClose]
    rw [hc.1]
    exact ih { p with finalizer := false } h

/-- C2: starting from a fresh player on which `Play` was called, running
the streaming loop over a source that yields the given chunks and then
`io.EOF` writes exactly the source's bytes to the handle, in order, and
leaves the player `Paused` with the handle absent. -/
theorem play_loop_eof_exact (chs : List (List Nat)) (last : List Nat) :
    ∃ q evs,
      Player.loop true (Player.Play newPlayer).1 (eofScript chs last) = some (q, evs) ∧
      writtenBytes evs = chs.flatten ++ last ∧
      q.state = PlayerState.paused ∧ q.v = false := by
  have hv : (Player.Play newPlayer).1.v = true := rfl
  have hs : (Player.Play newPlayer).1.state = PlayerState.playing := rfl
  have hnc : (Player.Play newPlayer).1.state ≠ PlayerState.closed := by
    rw [hs]; intro h; cases h
  unfold eofScript
  rw [Player.loop_chunks (Player.Play newPlayer).1 hv hs chs [(last, some RErr.eof)]]
  rw [Player.loop_nil_eof (Player.Play newPlayer).1 hv hs last]
  refine ⟨_, _, rfl, ?_, rfl, rfl⟩
  rw [writtenBytes_append, writtenBytes_append,
      writtenBytes_chunksTrace (Player.Play newPlayer).1 hv hnc,
      writtenBytes_chunkTrace (Player.Play newPlayer).1 hv hnc]
  have hz : writtenBytes ((Player.close (Player.Play newPlayer).1 false).2) = [] := rfl
  rw [hz]
  simp

/-- C3: a non-EOF read error is recorded as the sticky error and forces
`state = Closed`; the loop result does not depend on any later read
results (no retry), and every subsequent `Close` returns that error. -/
theorem fatal_error_sticky (chs : List (List Nat)) (c : List Nat) (e : Nat)
    (post : List ReadResult) :
    ∃ q evs,
      Player.loop true (Player.Play newPlayer).1 (fatalScript chs c e post) = some (q, evs) ∧
      q.err = some e ∧ q.state = PlayerState.closed ∧
      (∀ post2, Player.loop true (Player.Play newPlayer).1 (fatalScript chs c e post2) =
        some (q, evs)) ∧
      (∀ n, ((Player.iterClose q n).Close).1.2 = some e) := by
  have hv : (Player.Play newPlayer).1.v = true := rfl
  have hs : (Player.Play newPlayer).1.state = PlayerState.playing := rfl
  refine ⟨((Player.Play newPlayer).1.setError e).1,
    chunksTrace (Player.Play newPlayer).1 chs ++ ((Player.Play newPlayer).1.setError e).2,
    ?_, rfl, rfl, ?_, ?_⟩
  · unfold fatalScript
    rw [Player.loop_chunks (Player.Play newPlayer).1 hv hs chs]
    rw [Player.loop_fatal_head (Player.Play newPlayer).1 hv hs c e post]
    rfl
  · intro post2
    unfold fatalScript
    rw [Player.loop_chunks (Player.Play newPlayer).1 hv hs chs]
    rw [Player.loop_fatal_head (Player.Play newPlayer).1 hv hs c e post2]
    rfl
  · intro n
    have hq : (((Player.Play newPlayer).1.setError e).1).state = PlayerState.closed := rfl
    have h1 := Player.iterClose_closed (((Player.Play newPlayer).1.setError e).1) hq n
    have h2 := Player.Close_closed _ h1.1
    rw [h2.2, h1.2]
    rfl

/-- C10: when a read returns bytes together with a fatal (non-EOF) error,
those bytes are never delivered to the handle: only the earlier error-free
chunks are written. -/
theorem fatal_error_discards_chunk (chs : List (List Nat)) (c : List Nat) (e : Nat)
    (post : List ReadResult) (hc : 0 < c.length) :
    ∃ q evs,
      Player.loop true (Player.Play newPlayer).1 (fatalScript chs c e post) = some (q, evs) ∧
      writtenBytes evs = chs.flatten := by
  have hv : (Player.Play newPlayer).1.v = true := rfl
  have hs : (Player.Play newPlayer).1.state = PlayerState.playing := rfl
  have hnc : (Player.Play newPlayer).1.state ≠ PlayerState.closed := by
    rw [hs]; intro h; cases h
  unfold fatalScript
  rw [Player.loop_chunks (Player.Play newPlayer).1 hv hs chs]
  rw [Player.loop_fatal_head (Player.Play newPlayer).1 hv hs c e post]
  refine ⟨_, _, rfl, ?_⟩
  rw [writtenBytes_append, writtenBytes_chunksTrace (Player.Play newPlayer).1 hv hnc]
  have hz : writtenBytes (((Player.Play newPlayer).1.setError e).2) = [] := rfl
  rw [hz]
  simp

/-- Witness for C10 at a concrete source script. -/
theorem fatal_error_discards_chunk_witness :
    0 < ([3, 4] : List Nat).length ∧
    ∃ q evs,
      Player.loop true (Player.Play newPlayer).1 (fatalScript [[1, 2]] [3, 4] 5 []) =
        some (q, evs) ∧
      writtenBytes evs = ([[1, 2]] : List (List Nat)).flatten :=
  ⟨by decide, fatal_error_discards_chunk [[1, 2]] [3, 4] 5 [] (by decide)⟩

/-- C1: for every sequence of Play/Pause/Reset/Close/setError applied to a
player whose state is Closed, the state stays Closed and no
`createPlayer` call (handle allocation) ever occurs. -/
theorem closed_state_terminal (p : Player) (ops : List Op)
    (h : p.state = PlayerState.closed) :
    (Player.runOps p ops).1.state = PlayerState.closed ∧
    Action.callCreatePlayer ∉ (Player.runOps p ops).2 := by
  induction ops generalizing p with
  | nil =>
    simp only [Player.runOps]
    exact ⟨h, by simp⟩
  | cons op rest ih =>
    have h1 := Player.step_closed p op h
    have h2 := ih (p.step op).1 h1.1
    simp only [Player.runOps]
    refine ⟨h2.1, ?_⟩
    rw [List.mem_append]
    rintro (hc | hc)
    · exact h1.2 hc
    · exact h2.2 hc

/-- Witness for C1 at a concrete closed player and operation sequence. -/
theorem closed_state_terminal_witness :
    ({ newPlayer with state := PlayerState.closed } : Player).state = PlayerState.closed ∧
    ((Player.runOps { newPlayer with state := PlayerState.closed }
        [Op.play, Op.pause, Op.reset, Op.closeOp, Op.setErr 7]).1.state = PlayerState.closed ∧
      Action.callCreatePlayer ∉ (Player.runOps { newPlayer with state := PlayerState.closed }
        [Op.play, Op.pause, Op.reset, Op.closeOp, Op.setErr 7]).2) :=
  ⟨rfl, closed_state_terminal { newPlayer with state := PlayerState.closed }
    [Op.play, Op.pause, Op.reset, Op.closeOp, Op.setErr 7] rfl⟩

/-- Recognizes a handle allocation (`createPlayer` call). -/
def isCreate : Action → Bool
  | Action.callCreatePlayer => true
  | _ => false

/-- Recognizes a goroutine start (`go p.loop()`). -/
def isGo : Action → Bool
  | Action.goLoop => true
  | _ => false

/-- C4 counterexample: on a paused player with a handle present, the
internal `close(true)` — the variant `Close` invokes — passes `false`,
not `true`, as the discard-pending argument of the handle's close call. -/
theorem hard_close_discard_cx :
    Action.hClose true true ∉ (Player.close { newPlayer with v := true } true).2 ∧
    Action.hClose true false ∈ (Player.close { newPlayer with v := true } true).2 := by
  decide

/-- C4 amended: the internal close, for any `remove` flag, instructs the
handle to close with discard-pending `false`; no close call with
discard-pending `true` is ever issued by it (that flag is passed only by
`Reset` and `setError`), and the same holds for the public `Close`. -/
theorem hard_close_discard_false (p : Player) (b : Bool)
    (h : p.state ≠ PlayerState.closed) :
    Action.hClose p.v false ∈ (Player.close p b).2 ∧
    (∀ pr d, Action.hClose pr d ∈ (Player.close p b).2 → pr = p.v ∧ d = false) ∧
    Action.hClose p.v false ∈ (Player.Close p).2 := by
  refine ⟨?_, ?_, ?_⟩
  · unfold Player.close
    rw [if_neg h]
    split <;> simp
  · intro pr d hm
    unfold Player.close at hm
    rw [if_neg h] at hm
    revert hm
    split <;> · intro hm; simp at hm; exact hm
  · unfold Player.Close Player.close
    rw [if_neg (show ¬({ p with finalizer := false } : Player).state = PlayerState.closed from h)]
    simp

/-- Witness for C4's amended statement at a concrete player. -/
theorem hard_close_discard_false_witness :
    ({ newPlayer with v := true } : Player).state ≠ PlayerState.closed ∧
    (Action.hClose ({ newPlayer with v := true } : Player).v false ∈
        (Player.close { newPlayer with v := true } true).2 ∧
      (∀ pr d, Action.hClose pr d ∈ (Player.close { newPlayer with v := true } true).2 →
        pr = ({ newPlayer with v := true } : Player).v ∧ d = false) ∧
      Action.hClose ({ newPlayer with v := true } : Player).v false ∈
        (Player.Close { newPlayer with v := true }).2) :=
  ⟨by decide, hard_close_discard_false { newPlayer with v := true } true (by decide)⟩

/-- C5: `Play` allocates a handle and starts a streaming goroutine exactly
when no handle exists and the state is not Closed; with a handle already
present it allocates nothing and starts no task. -/
theorem play_single_task (p : Player) :
    (p.v = true →
      (Player.Play p).2.countP isCreate = 0 ∧ (Player.Play p).2.countP isGo = 0) ∧
    ((Player.Play p).2.countP isCreate =
      if p.v = false ∧ p.state ≠ PlayerState.closed then 1 else 0) ∧
    ((Player.Play p).2.countP isGo =
      if p.v = false ∧ p.state ≠ PlayerState.closed then 1 else 0) := by
  unfold Player.Play
  by_cases hcl : p.state = PlayerState.closed
  · rw [if_pos hcl]
    refine ⟨fun _ => ⟨rfl, rfl⟩, ?_, ?_⟩ <;>
      · rw [if_neg (fun hh => hh.2 hcl)]
        rfl
  · rw [if_neg hcl]
    by_cases hv : p.v = false
    · rw [if_pos hv]
      refine ⟨?_, ?_, ?_⟩
      · intro htrue; rw [hv] at htrue; cases htrue
      · rw [if_pos ⟨hv, hcl⟩]; rfl
      · rw [if_pos ⟨hv, hcl⟩]; rfl
    · rw [if_neg hv]
      refine ⟨fun _ => ⟨rfl, rfl⟩, ?_, ?_⟩ <;>
        · rw [if_neg (fun hh => hv hh.1)]
          rfl

/-- Witness for C5 at a player that already has a handle. -/
theorem play_single_task_witness :
    ((Player.Play newPlayer).1.v = true ∧
      ((Player.Play (Player.Play newPlayer).1).2.countP isCreate = 0 ∧
        (Player.Play (Player.Play newPlayer).1).2.countP isGo = 0)) :=
  ⟨rfl, (play_single_task (Player.Play newPlayer).1).1 rfl⟩

/-- C6: `SetVolume` on a player without a handle is a no-op that does not
update the cached volume, so `Volume` and the volume a later `Play`
applies to the fresh handle still reflect the previous cache; the cache is
updated only while a handle is present. -/
theorem setVolume_cache_asymmetry (p : Player) (x : ℚ) :
    (p.v = false →
      (Player.SetVolume p x).1 = p ∧
      (Player.Volume (Player.SetVolume p x).1).1 = p.volume ∧
      (p.state ≠ PlayerState.closed →
        (Player.Play (Player.SetVolume p x).1).1.hVolume = p.volume)) ∧
    (p.v = true → (Player.SetVolume p x).1.volume = x) := by
  constructor
  · intro hv
    have h1 : (Player.SetVolume p x).1 = p := by
      unfold Player.SetVolume
      rw [if_pos hv]
    refine ⟨h1, ?_, ?_⟩
    · rw [h1]
      unfold Player.Volume
      rw [if_pos hv]
    · intro hnc
      rw [h1]
      unfold Player.Play
      rw [if_neg hnc, if_pos hv]
  · intro hv
    unfold Player.SetVolume
    rw [if_neg (by rw [hv]; intro hf; cases hf)]

/-- Witness for C6 at a fresh player (no handle) and volume 1/2. -/
theorem setVolume_cache_asymmetry_witness :
    newPlayer.v = false ∧
    (Player.SetVolume newPlayer (1 / 2)).1 = newPlayer ∧
    (Player.Volume (Player.SetVolume newPlayer (1 / 2)).1).1 = newPlayer.volume ∧
    (Player.Play (Player.SetVolume newPlayer (1 / 2)).1).1.hVolume = newPlayer.volume :=
  ⟨rfl,
    ((setVolume_cache_asymmetry newPlayer (1 / 2)).1 rfl).1,
    ((setVolume_cache_asymmetry newPlayer (1 / 2)).1 rfl).2.1,
    ((setVolume_cache_asymmetry newPlayer (1 / 2)).1 rfl).2.2 (by decide)⟩

/-- C7 counterexample: after `setError 1`, a second `setError 2`
overwrites the sticky error — `err` becomes `some 2`, not the
first-recorded `some 1` — and the overwritten value is what `Close`
then returns. -/
theorem setError_first_write_cx :
    (((newPlayer.setError 1).1.setError 2).1.err = some 2) ∧
    (((newPlayer.setError 1).1.setError 2).1.err ≠ some 1) ∧
    ((Player.Close ((newPlayer.setError 1).1.setError 2).1).1.2 = some 2) := by
  decide

/-- C7 amended: `setError` writes the sticky error unconditionally, so the
last write wins: after `setError e` the error is `e`, the state is
Closed, and `Close` returns `e`. -/
theorem setError_last_write_wins (p : Player) (e : Nat) :
    ((p.setError e).1.err = some e) ∧
    ((p.setError e).1.state = PlayerState.closed) ∧
    ((Player.Close (p.setError e).1).1.2 = some e) := by
  have h1 : (p.setError e).1.err = some e := by
    unfold Player.setError
    split
    · rfl
    · split <;> rfl
  have h2 : (p.setError e).1.state = PlayerState.closed := by
    unfold Player.setError
    split
    · rfl
    · split <;> rfl
  have h3 := Player.Close_closed _ h2
  exact ⟨h1, h2, by rw [h3.2, h1]⟩

/-- C8 counterexample: `Volume` and `SetVolume` read and write the shared
fields without acquiring the mutex at all. -/
theorem volume_ops_unguarded_cx :
    guarded (Player.Volume newPlayer).2 = false ∧
    guarded (Player.SetVolume newPlayer (1 / 2)).2 = false := by
  constructor <;> rfl

/-- C8 amended: Play, Pause, Reset, the internal close, Close, setError
and write touch the shared fields only while holding the mutex, but
Volume and SetVolume access them with no lock held. -/
theorem lock_discipline (p : Player) (b : Bool) (e : Nat) (bs : List Nat) (x : ℚ) :
    guarded (Player.Play p).2 = true ∧
    guarded (Player.Pause p).2 = true ∧
    guarded (Player.Reset p).2 = true ∧
    guarded (Player.close p b).2 = true ∧
    guarded (Player.Close p).2 = true ∧
    guarded (p.setError e).2 = true ∧
    guarded (p.write bs).2 = true ∧
    guarded (Player.Volume p).2 = false ∧
    guarded (Player.SetVolume p x).2 = false := by
  refine ⟨?_, ?_, ?_, ?_, ?_, ?_, ?_, ?_, ?_⟩
  · unfold Player.Play
    split
    · rfl
    · split <;> rfl
  · unfold Player.Pause
    split
    · rfl
    · split <;> rfl
  · unfold Player.Reset
    split
    · rfl
    · split <;> rfl
  · unfold Player.close
    split
    · rfl
    · split <;> rfl
  · unfold Player.Close Player.close
    split <;> rfl
  · unfold Player.setError
    split
    · rfl
    · split <;> rfl
  · unfold Player.write
    split
    · rfl
    · split <;> rfl
  · unfold Player.Volume
    split <;> rfl
  · unfold Player.SetVolume
    split <;> rfl

/-- C9: the internal close (for either `remove` flag, hence also via the
public `Close`) does not guard on handle presence: on a non-closed player
with no handle it still issues the close call on the absent handle
value. -/
theorem close_calls_absent_handle (p : Player) (b : Bool)
    (h1 : p.state ≠ PlayerState.closed) (h2 : p.v = false) :
    Action.hClose false false ∈ (Player.close p b).2 ∧
    Action.hClose false false ∈ (Player.Close p).2 := by
  constructor
  · unfold Player.close
    rw [if_neg h1]
    split <;> · rw [← h2]; simp
  · unfold Player.Close Player.close
    rw [if_neg (show ¬({ p with finalizer := false } : Player).state = PlayerState.closed from h1)]
    have hv2 : ({ p with finalizer := false } : Player).v = false := h2
    rw [← hv2]
    simp

/-- Witness for C9 at a fresh, never-played player. -/
theorem close_calls_absent_handle_witness :
    newPlayer.state ≠ PlayerState.closed ∧ newPlayer.v = false ∧
    (Action.hClose false false ∈ (Player.close newPlayer false).2 ∧
      Action.hClose false false ∈ (Player.Close newPlayer).2) :=
  ⟨by decide, rfl, close_calls_absent_handle newPlayer false (by decide) rfl⟩

end Go2cpp
